import Mathlib

/-!
Verification of the rocBLAS benchmarking scripts (src/rocblas-benchmark.py and
src/rocblas-quick.py).  The two scripts share the same per-shape body: allocate
three device buffers, copy A and B host-to-device, issue warmup GEMM calls, a
device synchronize, timed GEMM calls, a second synchronize, derive the
throughput, record the result and free the buffers.  Every call into HIP or
rocBLAS that the scripts wrap in hip_check / rocblas_check is modelled as a
checked step carrying the status an oracle assigns to that call site; a
non-zero status raises (the scripts have no try/except inside the sweep), which
the embedding models by aborting the run with the error message.
-/

namespace Rockit

/-- Status constants from the scripts. -/
def HIP_SUCCESS : Int := 0

def ROCBLAS_STATUS_SUCCESS : Int := 0

def ROCBLAS_OPERATION_NONE : Int := 111

def ROCBLAS_DATATYPE_F16_R : Int := 150

def ROCBLAS_DATATYPE_F32_R : Int := 151

def ROCBLAS_DATATYPE_BF16_R : Int := 168

def ROCBLAS_GEMM_DEFAULT : Int := 0

/-- Element size in bytes for bf16, as set in both scripts. -/
def element_size : Nat := 2

/-- Warmup iteration count (warmup_iters = 3 in both scripts). -/
def warmup_iters : Nat := 3

/-- Timed iteration count (bench_iters = 10 in both scripts). -/
def bench_iters : Nat := 10

/-- One (m, n, k) problem shape of the sweep: C(m x n) = A(m x k) * B(k x n). -/
structure Shape where
  m : Nat
  n : Nat
  k : Nat
deriving DecidableEq

/-- The three device buffers a shape iteration allocates (d_A, d_B, d_C). -/
inductive Buf
  | A
  | B
  | C
deriving DecidableEq

/-- Requested size of d_A: A_size = m * k * element_size. -/
def A_size (s : Shape) : Nat := s.m * s.k * element_size

/-- Requested size of d_B: B_size = k * n * element_size. -/
def B_size (s : Shape) : Nat := s.k * s.n * element_size

/-- Requested size of d_C: C_size = m * n * element_size. -/
def C_size (s : Shape) : Nat := s.m * s.n * element_size

/-- The full argument list of one rocblas_gemm_ex call, in the order the
scripts pass them (handle omitted; device pointers abstracted to buffer ids). -/
structure GemmArgs where
  transA : Int
  transB : Int
  m : Nat
  n : Nat
  k : Nat
  alpha : ℚ
  aPtr : Buf
  aType : Int
  lda : Nat
  bPtr : Buf
  bType : Int
  ldb : Nat
  beta : ℚ
  cPtr : Buf
  cType : Int
  ldc : Nat
  dPtr : Buf
  dType : Int
  ldd : Nat
  computeType : Int
  algo : Int
  solutionIndex : Int
  flags : Nat
deriving DecidableEq

/-- The rocblas_gemm_ex arguments both scripts marshal for a shape:
no-transpose on both operands, dimensions m, n, k in order, alpha = 1.0,
d_A first with lda = m, d_B second with ldb = k, beta = 0.0, d_C as both the
C operand and the D output with ldc = m, f32 compute type, default algorithm,
solution index 0 and flags 0. -/
def gemmCallArgs (s : Shape) : GemmArgs where
  transA := ROCBLAS_OPERATION_NONE
  transB := ROCBLAS_OPERATION_NONE
  m := s.m
  n := s.n
  k := s.k
  alpha := 1
  aPtr := Buf.A
  aType := ROCBLAS_DATATYPE_BF16_R
  lda := s.m
  bPtr := Buf.B
  bType := ROCBLAS_DATATYPE_BF16_R
  ldb := s.k
  beta := 0
  cPtr := Buf.C
  cType := ROCBLAS_DATATYPE_BF16_R
  ldc := s.m
  dPtr := Buf.C
  dType := ROCBLAS_DATATYPE_BF16_R
  ldd := s.m
  computeType := ROCBLAS_DATATYPE_F32_R
  algo := ROCBLAS_GEMM_DEFAULT
  solutionIndex := 0
  flags := 0

/-- Observable calls a shape iteration makes into HIP / rocBLAS. -/
inductive Event
  | malloc (b : Buf) (size : Nat)
  | memcpyH2D (dst : Buf) (size : Nat)
  | gemmEx (args : GemmArgs)
  | deviceSync
  | free (b : Buf)
deriving DecidableEq

/-- One checked call: the status the call returns, the message hip_check /
rocblas_check would raise with, and the observable event of making the call. -/
structure Step where
  status : Int
  msg : String
  ev : Event
deriving DecidableEq

/-- Environment oracle: the status each HIP / rocBLAS call site returns for a
given shape, and the wall-clock seconds the timed loop takes.  gemmStatus is
indexed by the call number within the shape (0..2 warmup, 3..12 timed);
syncStatus by 0 (post-warmup) or 1 (post-timed-loop). -/
structure Oracle where
  mallocStatus : Shape → Buf → Int
  memcpyStatus : Shape → Buf → Int
  gemmStatus : Shape → Nat → Int
  syncStatus : Shape → Nat → Int
  elapsed : Shape → ℚ

/-- The sequence of checked calls one shape iteration issues, in program
order: three hipMalloc, two hipMemcpy (A and B only), warmup_iters GEMM
calls, hipDeviceSynchronize, bench_iters GEMM calls, hipDeviceSynchronize. -/
def shapeSteps (o : Oracle) (s : Shape) : List Step :=
  [ { status := o.mallocStatus s Buf.A, msg := "Failed to allocate d_A",
      ev := Event.malloc Buf.A (A_size s) },
    { status := o.mallocStatus s Buf.B, msg := "Failed to allocate d_B",
      ev := Event.malloc Buf.B (B_size s) },
    { status := o.mallocStatus s Buf.C, msg := "Failed to allocate d_C",
      ev := Event.malloc Buf.C (C_size s) },
    { status := o.memcpyStatus s Buf.A, msg := "Failed to copy A to device",
      ev := Event.memcpyH2D Buf.A (A_size s) },
    { status := o.memcpyStatus s Buf.B, msg := "Failed to copy B to device",
      ev := Event.memcpyH2D Buf.B (B_size s) } ]
  ++ (List.range warmup_iters).map (fun i =>
      { status := o.gemmStatus s i, msg := "Warmup GEMM failed",
        ev := Event.gemmEx (gemmCallArgs s) })
  ++ [ { status := o.syncStatus s 0, msg := "Failed to synchronize",
         ev := Event.deviceSync } ]
  ++ (List.range bench_iters).map (fun i =>
      { status := o.gemmStatus s (warmup_iters + i), msg := "Benchmark GEMM failed",
        ev := Event.gemmEx (gemmCallArgs s) })
  ++ [ { status := o.syncStatus s 1, msg := "Failed to synchronize",
         ev := Event.deviceSync } ]

/-- One recorded benchmark result, as appended to the results list. -/
structure BenchResult where
  m : Nat
  n : Nat
  k : Nat
  time_ms : ℚ
  tops : ℚ
deriving DecidableEq

/-- Average seconds per timed call: avg_time = elapsed / bench_iters. -/
def avg_time (elapsed : ℚ) : ℚ := elapsed / (bench_iters : ℚ)

/-- Derived throughput: tops = (2 * m * n * k) / (avg_time * 1e12). -/
def tops (m n k : Nat) (avgTime : ℚ) : ℚ :=
  (2 * (m : ℚ) * (n : ℚ) * (k : ℚ)) / (avgTime * 10 ^ 12)

/-- The result dict a successful shape iteration appends. -/
def resultOf (o : Oracle) (s : Shape) : BenchResult :=
  { m := s.m, n := s.n, k := s.k,
    time_ms := avg_time (o.elapsed s) * 1000,
    tops := tops s.m s.n s.k (avg_time (o.elapsed s)) }

/-- Run state: the calls made so far, the results list, how many times
rocblas_destroy_handle ran, and the pending uncaught RuntimeError if any. -/
structure RunState where
  trace : List Event
  results : List BenchResult
  destroyCount : Nat
  err : Option String
deriving DecidableEq

/-- Execute a sequence of checked calls.  Each call happens (its event is
recorded) and its status is then tested exactly as hip_check / rocblas_check
test it; the first non-zero status raises, abandoning the remaining steps. -/
def runChecked (steps : List Step) (st : RunState) : RunState :=
  match steps with
  | [] => st
  | step :: rest =>
    let st1 : RunState := { st with trace := st.trace ++ [step.ev] }
    if step.status = 0 then runChecked rest st1
    else { st1 with err := some step.msg }

/-- One shape iteration: run the checked calls; on success append the result
and free the three buffers (the hipFree calls are not status-checked in the
scripts); on failure the exception propagates and nothing is freed. -/
def shapeBody (o : Oracle) (s : Shape) (st : RunState) : RunState :=
  let st1 := runChecked (shapeSteps o s) st
  match st1.err with
  | some _ => st1
  | none =>
    { st1 with
      results := st1.results ++ [resultOf o s],
      trace := st1.trace ++ [Event.free Buf.A, Event.free Buf.B, Event.free Buf.C] }

/-- The sweep over the shape list; an uncaught error stops it. -/
def sweepShapes (o : Oracle) (shapes : List Shape) (st : RunState) : RunState :=
  match shapes with
  | [] => st
  | s :: rest =>
    let st1 := shapeBody o s st
    match st1.err with
    | some _ => st1
    | none => sweepShapes o rest st1

/-- Initial state, entered right after rocblas_create_handle succeeds. -/
def initState : RunState :=
  { trace := [], results := [], destroyCount := 0, err := none }

/-- The whole run after handle creation: sweep all shapes, then — only when
no exception escaped the sweep — reach the rocblas_destroy_handle line. -/
def runSweep (o : Oracle) (shapes : List Shape) : RunState :=
  let st := sweepShapes o shapes initState
  match st.err with
  | some _ => st
  | none => { st with destroyCount := st.destroyCount + 1 }

/-- Dimension set of rocblas-benchmark.py. -/
def dims : List Nat := [1024, 2048, 4096, 8192]

/-- The sweep of rocblas-benchmark.py: the Cartesian cube of dims in loop
order (m outermost, then n, then k). -/
def benchmarkShapes : List Shape :=
  dims.flatMap fun m => dims.flatMap fun n => dims.map fun k => { m := m, n := n, k := k }

/-- The explicit shape list of rocblas-quick.py. -/
def test_cases : List Shape :=
  [⟨1024, 1024, 1024⟩, ⟨2048, 2048, 2048⟩, ⟨4096, 4096, 4096⟩,
   ⟨8192, 8192, 8192⟩, ⟨2048, 4096, 2048⟩]

/-- Comparison used by the top-performers view: tops descending. -/
def topsGE (a b : BenchResult) : Bool := decide (b.tops ≤ a.tops)

/-- The top-performers view: sorted(results, key=tops, reverse=True), i.e. a
stable sort by tops descending, returning a fresh list. -/
def results_sorted (rs : List BenchResult) : List BenchResult :=
  rs.mergeSort topsGE

/-- Event classifiers. -/
def isMalloc : Event → Bool
  | Event.malloc _ _ => true
  | _ => false

def isMemcpy : Event → Bool
  | Event.memcpyH2D _ _ => true
  | _ => false

def isSync : Event → Bool
  | Event.deviceSync => true
  | _ => false

def isFree : Event → Bool
  | Event.free _ => true
  | _ => false

/-- Number of hipDeviceSynchronize calls in a trace. -/
def countSync (t : List Event) : Nat := (t.filter isSync).length

/-- Number of hipFree calls in a trace. -/
def countFree (t : List Event) : Nat := (t.filter isFree).length

/-- All checked calls of a shape iteration report success. -/
def shapeAllOk (o : Oracle) (s : Shape) : Prop :=
  ∀ step ∈ shapeSteps o s, step.status = 0

instance (o : Oracle) (s : Shape) : Decidable (shapeAllOk o s) :=
  List.decidableBAll _ _

/-- An environment in which every call succeeds and every timed loop takes
one second of wall clock. -/
def okOracle : Oracle :=
  { mallocStatus := fun _ _ => 0, memcpyStatus := fun _ _ => 0,
    gemmStatus := fun _ _ => 0, syncStatus := fun _ _ => 0,
    elapsed := fun _ => 1 }

/-- The full event trace of one successful shape iteration: the checked calls
followed by the three hipFree calls. -/
def shapeTrace (o : Oracle) (s : Shape) : List Event :=
  (shapeSteps o s).map Step.ev ++
    [Event.free Buf.A, Event.free Buf.B, Event.free Buf.C]

/-- A concrete shape used in counterexamples and witnesses. -/
def failShape : Shape := ⟨1024, 1024, 1024⟩

/-- A second concrete shape, following failShape in a sweep. -/
def nextShape : Shape := ⟨2048, 2048, 2048⟩

/-- An environment identical to okOracle except that the hipMalloc of d_B for
failShape reports a non-zero status (out of device memory). -/
def failOracle : Oracle :=
  { okOracle with
    mallocStatus := fun s b => if s = failShape ∧ b = Buf.B then 1 else 0 }

/-- Modelled from the spec: the GEMM kernel itself lives in librocblas, which
is not part of this repository.  The spec glossary defines GEMM as
C = alpha * A * B + beta * C, and the extended call writes the result into the
separate D operand.  This is entry (i, j) of that output D. -/
def gemm_ex_D (m n k : Nat) (alpha beta : ℚ)
    (A : Fin m → Fin k → ℚ) (B : Fin k → Fin n → ℚ) (C : Fin m → Fin n → ℚ)
    (i : Fin m) (j : Fin n) : ℚ :=
  alpha * (Finset.univ.sum fun l => A i l * B l j) + beta * C i j

/-- Events of the checked calls of one shape, in program order. -/
theorem shapeSteps_map_ev (o : Oracle) (s : Shape) :
    (shapeSteps o s).map Step.ev =
      [Event.malloc Buf.A (A_size s), Event.malloc Buf.B (B_size s),
       Event.malloc Buf.C (C_size s), Event.memcpyH2D Buf.A (A_size s),
       Event.memcpyH2D Buf.B (B_size s)]
      ++ List.replicate warmup_iters (Event.gemmEx (gemmCallArgs s))
      ++ [Event.deviceSync]
      ++ List.replicate bench_iters (Event.gemmEx (gemmCallArgs s))
      ++ [Event.deviceSync] := rfl

/-- When every status is zero, runChecked only appends the events. -/
theorem runChecked_ok (steps : List Step) (st : RunState)
    (h : ∀ step ∈ steps, step.status = 0) :
    runChecked steps st = { st with trace := st.trace ++ steps.map Step.ev } := by
  induction steps generalizing st with
  | nil => simp [runChecked]
  | cons step rest ih =>
    have h0 : step.status = 0 := h step (by simp)
    have hrest : ∀ u ∈ rest, u.status = 0 := fun u hu => h u (by simp [hu])
    simp only [runChecked, h0, if_pos]
    rw [ih _ hrest]
    simp

/-- When some status is non-zero, runChecked raises: the error is set, the
results and destroy count are untouched, and the trace grows only by events
drawn from the step list. -/
theorem runChecked_fail (steps : List Step) (st : RunState)
    (h : ¬ ∀ step ∈ steps, step.status = 0) :
    (runChecked steps st).err.isSome ∧
    (runChecked steps st).results = st.results ∧
    (runChecked steps st).destroyCount = st.destroyCount ∧
    ∃ l, (runChecked steps st).trace = st.trace ++ l ∧
      ∀ e ∈ l, e ∈ steps.map Step.ev := by
  induction steps generalizing st with
  | nil => exact absurd (by simp) h
  | cons step rest ih =>
    by_cases h0 : step.status = 0
    · have hrest : ¬ ∀ u ∈ rest, u.status = 0 := by
        intro hr
        exact h (by
          intro u hu
          rcases List.mem_cons.mp hu with h1 | h2
          · exact h1 ▸ h0
          · exact hr u h2)
      simp only [runChecked, h0, if_pos]
      obtain ⟨he, hres, hd, l, htr, hmem⟩ := ih _ hrest
      refine ⟨he, hres, hd, step.ev :: l, ?_, ?_⟩
      · simpa using htr
      · intro e he2
        rcases List.mem_cons.mp he2 with h1 | h2
        · simp [h1]
        · exact List.mem_cons_of_mem _ (hmem e h2)
    · have hstep : runChecked (step :: rest) st =
          { st with trace := st.trace ++ [step.ev], err := some step.msg } := by
        simp [runChecked, h0]
      rw [hstep]
      refine ⟨rfl, rfl, rfl, [step.ev], rfl, ?_⟩
      intro e he2
      simp at he2
      simp [he2]

/-- A shape iteration whose calls all succeed appends its trace and result. -/
theorem shapeBody_ok (o : Oracle) (s : Shape) (st : RunState)
    (h : shapeAllOk o s) (herr : st.err = none) :
    shapeBody o s st =
      { st with trace := st.trace ++ shapeTrace o s,
                results := st.results ++ [resultOf o s] } := by
  unfold shapeBody
  rw [runChecked_ok _ _ h]
  dsimp only
  rw [herr]
  simp [shapeTrace]

/-- A shape iteration with a failing call raises: no result is recorded, no
hipFree runs (the trace grows only by checked-call events), and the handle
destroy count is unchanged. -/
theorem shapeBody_fail (o : Oracle) (s : Shape) (st : RunState)
    (hs : ¬ shapeAllOk o s) :
    (shapeBody o s st).err.isSome ∧
    (shapeBody o s st).results = st.results ∧
    (shapeBody o s st).destroyCount = st.destroyCount ∧
    ∃ l, (shapeBody o s st).trace = st.trace ++ l ∧
      ∀ e ∈ l, e ∈ (shapeSteps o s).map Step.ev := by
  obtain ⟨he, hres, hd, l, htr, hmem⟩ := runChecked_fail (shapeSteps o s) st hs
  obtain ⟨msg, hmsg⟩ := Option.isSome_iff_exists.mp he
  have hbody : shapeBody o s st = runChecked (shapeSteps o s) st := by
    simp only [shapeBody]
    rw [hmsg]
  rw [hbody]
  exact ⟨he, hres, hd, l, htr, hmem⟩

/-- A sweep over shapes that all succeed, starting from an error-free state,
concatenates their traces and results in sweep order. -/
theorem sweepShapes_ok (o : Oracle) (shapes : List Shape) (st : RunState)
    (h : ∀ s ∈ shapes, shapeAllOk o s) (herr : st.err = none) :
    sweepShapes o shapes st =
      { st with trace := st.trace ++ shapes.flatMap (shapeTrace o),
                results := st.results ++ shapes.map (resultOf o) } := by
  induction shapes generalizing st with
  | nil => simp [sweepShapes]
  | cons s rest ih =>
    rw [sweepShapes, shapeBody_ok o s st (h s (by simp)) herr]
    dsimp only
    rw [herr]
    dsimp only
    rw [ih _ (fun u hu => h u (by simp [hu])) rfl]
    simp

/-- Processing a prefix of all-successful shapes first, then the rest. -/
theorem sweepShapes_append_ok (o : Oracle) (pre l2 : List Shape) (st : RunState)
    (hpre : ∀ t ∈ pre, shapeAllOk o t) (herr : st.err = none) :
    sweepShapes o (pre ++ l2) st = sweepShapes o l2 (sweepShapes o pre st) := by
  induction pre generalizing st with
  | nil => rfl
  | cons t ts ih =>
    rw [List.cons_append, sweepShapes, sweepShapes,
      shapeBody_ok o t st (hpre t (by simp)) herr]
    dsimp only
    rw [herr]
    dsimp only
    exact ih _ (fun u hu => hpre u (by simp [hu])) rfl

/-- A runChecked pass never touches the destroy count. -/
theorem runChecked_destroyCount (steps : List Step) (st : RunState) :
    (runChecked steps st).destroyCount = st.destroyCount := by
  induction steps generalizing st with
  | nil => rfl
  | cons u rest ih =>
    simp only [runChecked]
    split
    · exact ih _
    · rfl

/-- A shape iteration never touches the destroy count. -/
theorem shapeBody_destroyCount (o : Oracle) (s : Shape) (st : RunState) :
    (shapeBody o s st).destroyCount = st.destroyCount := by
  simp only [shapeBody]
  cases hc : (runChecked (shapeSteps o s) st).err with
  | some e => exact runChecked_destroyCount _ _
  | none => exact runChecked_destroyCount _ _

/-- The sweep never reaches the rocblas_destroy_handle line. -/
theorem sweepShapes_destroyCount (o : Oracle) (shapes : List Shape)
    (st : RunState) : (sweepShapes o shapes st).destroyCount = st.destroyCount := by
  induction shapes generalizing st with
  | nil => rfl
  | cons s rest ih =>
    simp only [sweepShapes]
    cases hc : (shapeBody o s st).err with
    | some e => exact shapeBody_destroyCount o s st
    | none => exact (ih _).trans (shapeBody_destroyCount o s st)

/-- The final match in runSweep only touches destroyCount. -/
theorem runSweep_results (o : Oracle) (shapes : List Shape) :
    (runSweep o shapes).results = (sweepShapes o shapes initState).results := by
  simp only [runSweep]
  cases hc : (sweepShapes o shapes initState).err <;> rfl

/-- The final match in runSweep preserves the trace as well. -/
theorem runSweep_trace (o : Oracle) (shapes : List Shape) :
    (runSweep o shapes).trace = (sweepShapes o shapes initState).trace := by
  simp only [runSweep]
  cases hc : (sweepShapes o shapes initState).err <;> rfl

/-- The final match in runSweep preserves the error field. -/
theorem runSweep_err (o : Oracle) (shapes : List Shape) :
    (runSweep o shapes).err = (sweepShapes o shapes initState).err := by
  simp only [runSweep]
  cases hc : (sweepShapes o shapes initState).err with
  | some e => exact hc
  | none => rfl

/-- The only GEMM argument record a shape iteration ever passes is
gemmCallArgs. -/
theorem gemm_event_args (o : Oracle) (s : Shape) (a : GemmArgs)
    (h : Event.gemmEx a ∈ (shapeSteps o s).map Step.ev) : a = gemmCallArgs s := by
  rw [shapeSteps_map_ev] at h
  simp [List.mem_replicate, warmup_iters, bench_iters] at h
  tauto

/-- No hipFree occurs among the checked calls of a shape. -/
theorem filter_isFree_shapeSteps (o : Oracle) (s : Shape) :
    ((shapeSteps o s).map Step.ev).filter isFree = [] := by
  rw [shapeSteps_map_ev]
  simp [List.filter_replicate, isFree, warmup_iters, bench_iters]

/-- Free counting distributes over concatenation. -/
theorem countFree_append (l1 l2 : List Event) :
    countFree (l1 ++ l2) = countFree l1 + countFree l2 := by
  simp [countFree, List.filter_append]

/-- A completed shape iteration performs exactly three hipFree calls. -/
theorem countFree_shapeTrace (o : Oracle) (s : Shape) :
    countFree (shapeTrace o s) = 3 := by
  rw [shapeTrace, countFree_append, countFree, filter_isFree_shapeSteps]
  rfl

/-- A run of completed shape iterations frees three buffers per shape. -/
theorem countFree_flatMap (o : Oracle) (l : List Shape) :
    countFree (l.flatMap (shapeTrace o)) = 3 * l.length := by
  induction l with
  | nil => rfl
  | cons t ts ih =>
    rw [List.flatMap_cons, countFree_append, countFree_shapeTrace, ih,
      List.length_cons]
    ring

/-- Events drawn from the checked calls of a shape contain no hipFree. -/
theorem countFree_of_shapeSteps_events (o : Oracle) (s : Shape) (l : List Event)
    (hmem : ∀ e ∈ l, e ∈ (shapeSteps o s).map Step.ev) : countFree l = 0 := by
  have hnone : ∀ e ∈ (shapeSteps o s).map Step.ev, ¬ isFree e = true :=
    List.filter_eq_nil_iff.mp (filter_isFree_shapeSteps o s)
  unfold countFree
  rw [List.length_eq_zero, List.filter_eq_nil_iff]
  exact fun e hel => hnone e (hmem e hel)

/-- C1: the claim (and the script's own comment) says the GEMM call is issued
as Ct = Bt x At, with B's buffer in the first-operand slot and A's in the
second.  The code does not do this: at shape (1024, 2048, 4096) the
first-operand slot holds A's buffer with lda = m and the second holds B's
buffer, with the dimensions m, n, k passed in their original, unswapped
roles. -/
theorem gemm_operands_not_swapped :
    (gemmCallArgs ⟨1024, 2048, 4096⟩).aPtr = Buf.A ∧
    (gemmCallArgs ⟨1024, 2048, 4096⟩).bPtr = Buf.B ∧
    ¬ (gemmCallArgs ⟨1024, 2048, 4096⟩).aPtr = Buf.B ∧
    (gemmCallArgs ⟨1024, 2048, 4096⟩).m = 1024 ∧
    (gemmCallArgs ⟨1024, 2048, 4096⟩).n = 2048 ∧
    (gemmCallArgs ⟨1024, 2048, 4096⟩).lda = 1024 := by
  refine ⟨rfl, rfl, ?_, rfl, rfl, rfl⟩
  decide

/-- C2 counterexample: with the hipMalloc of d_B failing for the first of two
shapes, the run aborts rather than skipping the shape: the RuntimeError
propagates, no shape is recorded as anything, d_A — already allocated for the
failing shape — is never freed, and the second shape is never processed. -/
theorem sweep_aborts_on_alloc_failure_cex :
    (runSweep failOracle [failShape, nextShape]).err =
      some "Failed to allocate d_B" ∧
    (runSweep failOracle [failShape, nextShape]).results = [] ∧
    Event.malloc Buf.A (A_size failShape) ∈
      (runSweep failOracle [failShape, nextShape]).trace ∧
    Event.free Buf.A ∉ (runSweep failOracle [failShape, nextShape]).trace := by
  decide

/-- C2 (amended): when a checked allocation, transfer, GEMM or synchronize
call of one shape returns a non-zero status, the raised error is not caught:
the run terminates with the error, exactly the shapes fully processed before
the failing one are recorded, and only their buffers (three per completed
shape) are ever freed — nothing allocated for the failing shape is freed and
no later shape is attempted. -/
theorem sweep_failure_propagates (o : Oracle) (pre : List Shape) (s : Shape)
    (rest : List Shape) (hpre : ∀ t ∈ pre, shapeAllOk o t)
    (hs : ¬ shapeAllOk o s) :
    (runSweep o (pre ++ s :: rest)).err.isSome = true ∧
    (runSweep o (pre ++ s :: rest)).results = pre.map (resultOf o) ∧
    countFree (runSweep o (pre ++ s :: rest)).trace = 3 * pre.length := by
  have hsw := sweepShapes_append_ok o pre (s :: rest) initState hpre rfl
  have hpreState := sweepShapes_ok o pre initState hpre rfl
  obtain ⟨he, hres, hd, l, htr, hmem⟩ :=
    shapeBody_fail o s (sweepShapes o pre initState) hs
  have hcons : sweepShapes o (s :: rest) (sweepShapes o pre initState) =
      shapeBody o s (sweepShapes o pre initState) := by
    simp only [sweepShapes]
    obtain ⟨msg, hmsg⟩ := Option.isSome_iff_exists.mp he
    rw [hmsg]
  refine ⟨?_, ?_, ?_⟩
  · rw [runSweep_err, hsw, hcons]
    exact he
  · rw [runSweep_results, hsw, hcons, hres, hpreState]
    simp [initState]
  · rw [runSweep_trace, hsw, hcons, htr, countFree_append,
      countFree_of_shapeSteps_events o s l hmem, hpreState]
    show countFree (initState.trace ++ pre.flatMap (shapeTrace o)) + 0 =
      3 * pre.length
    rw [Nat.add_zero, countFree_append, countFree_flatMap]
    have h0 : countFree initState.trace = 0 := rfl
    rw [h0, Nat.zero_add]

/-- C2 witness: a concrete three-shape sweep in which the second shape's d_B
allocation fails after the first shape succeeded. -/
theorem sweep_failure_propagates_witness :
    ((∀ t ∈ [nextShape], shapeAllOk failOracle t) ∧
      ¬ shapeAllOk failOracle failShape) ∧
    ((runSweep failOracle
        ([nextShape] ++ failShape :: [⟨4096, 4096, 4096⟩])).err.isSome = true ∧
      (runSweep failOracle
        ([nextShape] ++ failShape :: [⟨4096, 4096, 4096⟩])).results =
          [nextShape].map (resultOf failOracle) ∧
      countFree (runSweep failOracle
        ([nextShape] ++ failShape :: [⟨4096, 4096, 4096⟩])).trace =
          3 * [nextShape].length) :=
  ⟨⟨by decide, by decide⟩,
    sweep_failure_propagates failOracle [nextShape] failShape
      [⟨4096, 4096, 4096⟩] (by decide) (by decide)⟩

/-- C3 counterexample: in the same failing run the error escapes the sweep,
so the process exits without ever reaching the rocblas_destroy_handle line:
the handle is destroyed zero times on this exit path, not once. -/
theorem handle_not_destroyed_on_error_cex :
    (runSweep failOracle [failShape, nextShape]).err.isSome = true ∧
    (runSweep failOracle [failShape, nextShape]).destroyCount = 0 := by
  decide

/-- Decomposition of the destroy count of a whole run. -/
theorem runSweep_destroyCount (o : Oracle) (shapes : List Shape) :
    (runSweep o shapes).destroyCount =
      (sweepShapes o shapes initState).destroyCount +
        (if (sweepShapes o shapes initState).err.isSome then 0 else 1) := by
  simp only [runSweep]
  cases hc : (sweepShapes o shapes initState).err with
  | some e => rfl
  | none => rfl

/-- C3 (amended): rocblas_destroy_handle runs exactly once when the sweep
finishes without error, and zero times when an uncaught error terminates the
run mid-sweep. -/
theorem handle_destroyed_iff_no_error (o : Oracle) (shapes : List Shape) :
    (runSweep o shapes).destroyCount =
      if (runSweep o shapes).err.isSome then 0 else 1 := by
  rw [runSweep_destroyCount, runSweep_err, sweepShapes_destroyCount]
  simp [initState]

/-- C4: for every shape with m, n, k > 0 and positive average seconds per
timed call, the recorded throughput is exactly
tops = (2 m n k) / (avgSeconds * 1e12). -/
theorem tops_formula (o : Oracle) (s : Shape) (_hm : 0 < s.m) (_hn : 0 < s.n)
    (_hk : 0 < s.k) (_havg : 0 < avg_time (o.elapsed s)) :
    (resultOf o s).tops =
      (2 * (s.m : ℚ) * (s.n : ℚ) * (s.k : ℚ)) /
        (avg_time (o.elapsed s) * 10 ^ 12) := rfl

/-- In the all-success environment the average seconds per timed call is the
positive value 1/10. -/
theorem okOracle_avg_time_pos (s : Shape) :
    0 < avg_time (okOracle.elapsed s) := by
  norm_num [avg_time, okOracle, bench_iters]

/-- C4 witness: shape (1024, 1024, 1024) with one second of elapsed time. -/
theorem tops_formula_witness :
    (0 < failShape.m ∧ 0 < failShape.n ∧ 0 < failShape.k ∧
      0 < avg_time (okOracle.elapsed failShape)) ∧
    (resultOf okOracle failShape).tops =
      (2 * (failShape.m : ℚ) * (failShape.n : ℚ) * (failShape.k : ℚ)) /
        (avg_time (okOracle.elapsed failShape) * 10 ^ 12) :=
  ⟨⟨by decide, by decide, by decide, okOracle_avg_time_pos failShape⟩,
    tops_formula okOracle failShape (by decide) (by decide) (by decide)
      (okOracle_avg_time_pos failShape)⟩

/-- C5: in a shape iteration where every call succeeds, the executed trace is
the setup calls, the warmup GEMM block, one synchronize, the timed GEMM block
(inside which no synchronize occurs), one synchronize immediately after the
last timed call, and the frees; in total the barrier runs exactly twice. -/
theorem sync_after_warmup_and_timed (o : Oracle) (s : Shape)
    (h : shapeAllOk o s) :
    (shapeBody o s initState).trace =
      [Event.malloc Buf.A (A_size s), Event.malloc Buf.B (B_size s),
       Event.malloc Buf.C (C_size s), Event.memcpyH2D Buf.A (A_size s),
       Event.memcpyH2D Buf.B (B_size s)]
      ++ List.replicate warmup_iters (Event.gemmEx (gemmCallArgs s))
      ++ [Event.deviceSync]
      ++ List.replicate bench_iters (Event.gemmEx (gemmCallArgs s))
      ++ [Event.deviceSync]
      ++ [Event.free Buf.A, Event.free Buf.B, Event.free Buf.C] ∧
    countSync (shapeBody o s initState).trace = 2 ∧
    countSync (List.replicate bench_iters (Event.gemmEx (gemmCallArgs s))) = 0 := by
  have hb := shapeBody_ok o s initState h rfl
  refine ⟨?_, ?_, ?_⟩
  · rw [hb]
    simp [shapeTrace, shapeSteps_map_ev, initState]
  · rw [hb]
    simp [shapeTrace, shapeSteps_map_ev, initState, countSync,
      List.filter_append, List.filter_replicate, isSync, warmup_iters,
      bench_iters]
  · simp [countSync, List.filter_replicate, isSync]

/-- C5 witness: the all-success environment at shape (1024, 1024, 1024). -/
theorem sync_after_warmup_and_timed_witness :
    shapeAllOk okOracle failShape ∧
    ((shapeBody okOracle failShape initState).trace =
      [Event.malloc Buf.A (A_size failShape),
       Event.malloc Buf.B (B_size failShape),
       Event.malloc Buf.C (C_size failShape),
       Event.memcpyH2D Buf.A (A_size failShape),
       Event.memcpyH2D Buf.B (B_size failShape)]
      ++ List.replicate warmup_iters (Event.gemmEx (gemmCallArgs failShape))
      ++ [Event.deviceSync]
      ++ List.replicate bench_iters (Event.gemmEx (gemmCallArgs failShape))
      ++ [Event.deviceSync]
      ++ [Event.free Buf.A, Event.free Buf.B, Event.free Buf.C] ∧
    countSync (shapeBody okOracle failShape initState).trace = 2 ∧
    countSync (List.replicate bench_iters
      (Event.gemmEx (gemmCallArgs failShape))) = 0) :=
  ⟨by decide, sync_after_warmup_and_timed okOracle failShape (by decide)⟩

/-- C6: for every shape, the marshalled leading dimensions are lda = m,
ldb = k and ldc = m. -/
theorem gemm_leading_dims (s : Shape) :
    (gemmCallArgs s).lda = s.m ∧ (gemmCallArgs s).ldb = s.k ∧
    (gemmCallArgs s).ldc = s.m :=
  ⟨rfl, rfl, rfl⟩

/-- C7: the hipMalloc requests of every shape iteration are exactly
m * k * 2 bytes for d_A, k * n * 2 bytes for d_B and m * n * 2 bytes for d_C
(two bytes per bf16 element). -/
theorem buffer_sizes (o : Oracle) (s : Shape) :
    ((shapeSteps o s).map Step.ev).filter isMalloc =
      [Event.malloc Buf.A (s.m * s.k * 2), Event.malloc Buf.B (s.k * s.n * 2),
       Event.malloc Buf.C (s.m * s.n * 2)] := by
  rw [shapeSteps_map_ev]
  simp [isMalloc, List.filter_replicate, A_size, B_size, C_size,
    element_size, warmup_iters, bench_iters]

/-- C8: after a sweep in which every shape succeeds, the recorded results are
in input order (their (m, n, k) projection equals the input shape list), and
the top-performers view is a permutation of the primary results list sorted
by tops descending — the primary collection itself is a pure value the sort
does not alter. -/
theorem results_order_and_sorted_view (o : Oracle) (shapes : List Shape)
    (h : ∀ s ∈ shapes, shapeAllOk o s) :
    ((runSweep o shapes).results).map (fun r => (r.m, r.n, r.k)) =
      shapes.map (fun s => (s.m, s.n, s.k)) ∧
    List.Perm (results_sorted (runSweep o shapes).results)
      ((runSweep o shapes).results) ∧
    List.Pairwise (fun a b => b.tops ≤ a.tops)
      (results_sorted (runSweep o shapes).results) := by
  have hres : (runSweep o shapes).results = shapes.map (resultOf o) := by
    rw [runSweep_results, sweepShapes_ok o shapes initState h rfl]
    simp [initState]
  refine ⟨?_, ?_, ?_⟩
  · rw [hres, List.map_map]
    rfl
  · exact List.mergeSort_perm _ _
  · have htrans : ∀ a b c : BenchResult, topsGE a b = true →
        topsGE b c = true → topsGE a c = true := by
      intro a b c h1 h2
      simp only [topsGE, decide_eq_true_eq] at h1 h2 ⊢
      exact h2.trans h1
    have htotal : ∀ a b : BenchResult, (topsGE a b || topsGE b a) = true := by
      intro a b
      simp only [topsGE, Bool.or_eq_true, decide_eq_true_eq]
      exact le_total _ _
    have hp := List.sorted_mergeSort htrans htotal ((runSweep o shapes).results)
    exact hp.imp fun hab => of_decide_eq_true hab

/-- C8 witness: the quick script's shape list in the all-success
environment. -/
theorem results_order_and_sorted_view_witness :
    (∀ s ∈ test_cases, shapeAllOk okOracle s) ∧
    (((runSweep okOracle test_cases).results).map (fun r => (r.m, r.n, r.k)) =
      test_cases.map (fun s => (s.m, s.n, s.k)) ∧
    List.Perm (results_sorted (runSweep okOracle test_cases).results)
      ((runSweep okOracle test_cases).results) ∧
    List.Pairwise (fun a b => b.tops ≤ a.tops)
      (results_sorted (runSweep okOracle test_cases).results)) :=
  ⟨by decide, results_order_and_sorted_view okOracle test_cases (by decide)⟩

/-- C9: every GEMM call a shape iteration issues passes the same buffer, the
same element type and the same leading dimension in the C-input slot and the
D-output slot, so the multiply is performed in place with D aliasing C. -/
theorem gemm_in_place_output (o : Oracle) (s : Shape) (a : GemmArgs)
    (h : Event.gemmEx a ∈ (shapeSteps o s).map Step.ev) :
    a.cPtr = a.dPtr ∧ a.cType = a.dType ∧ a.ldc = a.ldd := by
  have ha := gemm_event_args o s a h
  subst ha
  exact ⟨rfl, rfl, rfl⟩

/-- C9 witness: the GEMM call of shape (1024, 1024, 1024). -/
theorem gemm_in_place_output_witness :
    Event.gemmEx (gemmCallArgs failShape) ∈
      (shapeSteps okOracle failShape).map Step.ev ∧
    ((gemmCallArgs failShape).cPtr = (gemmCallArgs failShape).dPtr ∧
     (gemmCallArgs failShape).cType = (gemmCallArgs failShape).dType ∧
     (gemmCallArgs failShape).ldc = (gemmCallArgs failShape).ldd) :=
  ⟨by decide,
    gemm_in_place_output okOracle failShape (gemmCallArgs failShape)
      (by decide)⟩

/-- C10: a shape iteration copies only A and B host-to-device — no transfer
ever targets d_C — every GEMM call fixes alpha = 1.0 and beta = 0.0, and
under the spec's GEMM semantics beta = 0 makes the written output independent
of whatever the uninitialized C buffer held. -/
theorem gemm_output_ignores_C_contents (o : Oracle) (s : Shape) :
    ((shapeSteps o s).map Step.ev).filter isMemcpy =
      [Event.memcpyH2D Buf.A (A_size s), Event.memcpyH2D Buf.B (B_size s)] ∧
    (gemmCallArgs s).alpha = 1 ∧
    (gemmCallArgs s).beta = 0 ∧
    ∀ (A : Fin s.m → Fin s.k → ℚ) (B : Fin s.k → Fin s.n → ℚ)
      (Ca Cb : Fin s.m → Fin s.n → ℚ),
      gemm_ex_D s.m s.n s.k (gemmCallArgs s).alpha (gemmCallArgs s).beta
          A B Ca =
        gemm_ex_D s.m s.n s.k (gemmCallArgs s).alpha (gemmCallArgs s).beta
          A B Cb := by
  refine ⟨?_, rfl, rfl, ?_⟩
  · rw [shapeSteps_map_ev]
    simp [isMemcpy, List.filter_replicate, warmup_iters, bench_iters]
  · intro A B Ca Cb
    funext i j
    show (gemmCallArgs s).alpha * _ + (gemmCallArgs s).beta * Ca i j =
      (gemmCallArgs s).alpha * _ + (gemmCallArgs s).beta * Cb i j
    norm_num [gemmCallArgs]

end Rockit
